import Mathlib

/-!
Verification of the color-sorting pipeline in `src/ai_sorter.py`.

The Python source is shallowly embedded here. Conveyor arithmetic (steps
of 0.5) is exact in binary64, so those floats are modelled by the equal
rationals. The actuator's 0.1 step is not exactly representable: the
control flow uses an idealized exact-rational step (which agrees with
binary64 on the short traces it is applied to), while the numerical
gate-trajectory claim is settled against `VirtualActuator.updateFP`, a
faithful binary64 model built on correctly-rounded addition
(`roundDouble`, round to nearest, ties to even). Randomness
(`random.randint`, `random.random`, `random.choice`) and keyboard input
are modelled as explicit inputs, and the OpenCV frame-to-pixel-count
pipeline (`cv2.cvtColor` / `cv2.inRange` / `cv2.countNonZero`) is an
external library; a frame is abstracted by the three pixel counts it
produces, and the repository's own decision logic is embedded verbatim.
-/

/-- `ObjectColor` enum from `ai_sorter.py` lines 8-12. -/
inductive ObjectColor where
  | RED
  | GREEN
  | BLUE
  | UNKNOWN
deriving DecidableEq, Repr

/-- One entry of `VirtualConveyor.objects`: the dict created by
`add_object` with keys `"color"`, `"position"`, `"id"` (lines 21-25). -/
structure ObjectToken where
  color : ObjectColor
  position : ℚ
  id : ℕ
deriving DecidableEq, Repr

/-- State of `VirtualConveyor` (lines 14-18): a scalar belt position, the
per-frame speed, and the list of object tokens. -/
structure VirtualConveyor where
  position : ℚ
  speed : ℚ
  objects : List ObjectToken
deriving DecidableEq, Repr

/-- `VirtualConveyor.__init__` (lines 15-18): position 0, speed 0.5, no
objects. -/
def VirtualConveyor.init : VirtualConveyor :=
  { position := 0, speed := 1/2, objects := [] }

/-- `VirtualConveyor.add_object` (lines 20-25). The id produced by
`random.randint(1000, 9999)` is passed in as the explicit input `newId`:
the source draws it at random and performs no uniqueness check. -/
def VirtualConveyor.add_object (c : VirtualConveyor) (color : ObjectColor)
    (newId : ℕ) : VirtualConveyor :=
  { c with objects := c.objects ++ [{ color := color, position := 0, id := newId }] }

/-- `VirtualConveyor.update` (lines 27-31): advance the belt position and
every object's position by `speed`, then return the objects whose new
position is `< 100`. The internal list itself is not filtered by the
source; only the returned list is. -/
def VirtualConveyor.update (c : VirtualConveyor) :
    VirtualConveyor × List ObjectToken :=
  let objs := c.objects.map (fun o => { o with position := o.position + c.speed })
  ({ c with position := c.position + c.speed, objects := objs },
   objs.filter (fun o => decide (o.position < 100)))

/-- The live-token set of a conveyor state: the tokens that have not yet
crossed the 100-unit travel limit. This is exactly the set `update`
returns (the expired dicts that linger in the Python list are never
observable again through the class interface). -/
def VirtualConveyor.liveSet (c : VirtualConveyor) : List ObjectToken :=
  c.objects.filter (fun o => decide (o.position < 100))

/-- Iterated `VirtualConveyor.update`, discarding the returned lists. -/
def VirtualConveyor.updateN (c : VirtualConveyor) : ℕ → VirtualConveyor
  | 0 => c
  | n + 1 => (c.updateN n).update.1

/-- State of `VirtualActuator` (lines 33-36): gate position
(0 = closed, 1 = open) and commanded target. -/
structure VirtualActuator where
  position : ℚ
  target : ℚ
deriving DecidableEq, Repr

/-- `VirtualActuator.__init__` (lines 34-36). -/
def VirtualActuator.init : VirtualActuator :=
  { position := 0, target := 0 }

/-- `VirtualActuator.set_position` (lines 38-39): records the target
only. -/
def VirtualActuator.set_position (a : VirtualActuator) (pos : ℚ) :
    VirtualActuator :=
  { a with target := pos }

/-- `VirtualActuator.update` (lines 41-47): move position by 0.1 toward
the target (unchanged when equal), and return the new position. The
float step is idealized here as the exact rational 1/10; this agrees
with binary64 arithmetic on the short traces this definition is used
for, and `VirtualActuator.updateFP` below models the same source lines
under faithful binary64 rounding for the gate-trajectory claim. -/
def VirtualActuator.update (a : VirtualActuator) : VirtualActuator × ℚ :=
  if a.position < a.target then
    ({ a with position := a.position + 1/10 }, a.position + 1/10)
  else if a.position > a.target then
    ({ a with position := a.position - 1/10 }, a.position - 1/10)
  else (a, a.position)

/-- Round a rational to the nearest integer, ties to even — the rounding
IEEE 754 applies to a scaled significand. -/
def rne (m : ℚ) : ℤ :=
  if m - ⌊m⌋ < 1/2 then ⌊m⌋
  else if m - ⌊m⌋ > 1/2 then ⌊m⌋ + 1
  else if 2 ∣ ⌊m⌋ then ⌊m⌋ else ⌊m⌋ + 1

/-- Round a rational to the nearest IEEE 754 binary64 value (round to
nearest, ties to even), for magnitudes in the normal range: the value is
scaled into `[2^52, 2^53)` by its binade exponent, the significand is
rounded to an integer, and the result is scaled back. Subnormals,
overflow and NaN do not occur among the values this file manipulates. -/
def roundDouble (q : ℚ) : ℚ :=
  if q = 0 then 0
  else if 0 < q then
    (rne (q * (2:ℚ) ^ ((52 : ℤ) - Int.log 2 q)) : ℚ) *
      (2:ℚ) ^ (Int.log 2 q - 52)
  else
    -((rne (-q * (2:ℚ) ^ ((52 : ℤ) - Int.log 2 (-q))) : ℚ) *
      (2:ℚ) ^ (Int.log 2 (-q) - 52))

/-- The binary64 value of the source literal `0.1`: the decimal literal
is converted to the nearest double. -/
def fp01 : ℚ := roundDouble (1/10)

/-- `VirtualActuator.update` (lines 41-47) under faithful binary64
arithmetic: `position += 0.1` / `position -= 0.1` store the correctly
rounded sum of the current double and the double nearest 0.1, and the
comparisons on doubles are exact. -/
def VirtualActuator.updateFP (a : VirtualActuator) : VirtualActuator × ℚ :=
  if a.position < a.target then
    ({ a with position := roundDouble (a.position + fp01) },
      roundDouble (a.position + fp01))
  else if a.position > a.target then
    ({ a with position := roundDouble (a.position - fp01) },
      roundDouble (a.position - fp01))
  else (a, a.position)

/-- Iterated `VirtualActuator.updateFP`. -/
def VirtualActuator.updateFPN (a : VirtualActuator) : ℕ → VirtualActuator
  | 0 => a
  | n + 1 => (a.updateFPN n).updateFP.1

/-- The decision rule of `AIColorDetector.detect` (lines 72-79), as a
function of the three pixel counts `cv2.countNonZero` yields for the red,
green and blue masks (lines 60-70, external OpenCV calls). -/
def AIColorDetector.detect (red_pixels green_pixels blue_pixels : ℕ) :
    ObjectColor :=
  if red_pixels > green_pixels ∧ red_pixels > blue_pixels then .RED
  else if green_pixels > red_pixels ∧ green_pixels > blue_pixels then .GREEN
  else if blue_pixels > red_pixels ∧ blue_pixels > green_pixels then .BLUE
  else .UNKNOWN

/-- State of `AutomatedSorter` (lines 82-88): conveyor, gate, current
target color, and the tally dictionary (one count per `ObjectColor`). -/
structure AutomatedSorter where
  conveyor : VirtualConveyor
  gate : VirtualActuator
  target_color : ObjectColor
  sorted_counts : ObjectColor → ℕ

/-- `AutomatedSorter.__init__` (lines 83-88): fresh components, target
RED, all tallies zero. -/
def AutomatedSorter.init : AutomatedSorter :=
  { conveyor := .init, gate := .init, target_color := .RED,
    sorted_counts := fun _ => 0 }

/-- The keyboard commands of the run loop (lines 171-176) that reassign
`target_color`. -/
inductive KeyCmd where
  | setRED
  | setGREEN
  | setBLUE
deriving DecidableEq, Repr

/-- The color a key command selects. -/
def KeyCmd.toColor : KeyCmd → ObjectColor
  | .setRED => .RED
  | .setGREEN => .GREEN
  | .setBLUE => .BLUE

/-- The explicit inputs of one iteration of `AutomatedSorter.run`
(lines 109-176): the pixel counts the detector extracts from this tick's
frame, the random spawn decision (lines 160-165, `none` when
`random.random() >= 0.03`, otherwise the chosen color and generated id),
and the key pressed this tick, if any (lines 168-176). -/
structure TickInput where
  red_pixels : ℕ
  green_pixels : ℕ
  blue_pixels : ℕ
  spawn : Option (ObjectColor × ℕ)
  key : Option KeyCmd
deriving DecidableEq, Repr

/-- One iteration of the `while` loop of `AutomatedSorter.run`
(lines 109-176), in source order: detect (line 112), control decision and
tally (lines 115-119), actuator update (line 122), conveyor update
(line 125), random spawn (lines 160-165), key-driven target change
(lines 171-176). Returns the new state together with the tick's
`gate_pos` and `active_objects`. -/
def AutomatedSorter.tick (s : AutomatedSorter) (inp : TickInput) :
    AutomatedSorter × ℚ × List ObjectToken :=
  let color := AIColorDetector.detect inp.red_pixels inp.green_pixels inp.blue_pixels
  let gate1 := if color = s.target_color then s.gate.set_position 1
               else s.gate.set_position 0
  let counts1 := if color = s.target_color then
                   fun x => if x = color then s.sorted_counts x + 1 else s.sorted_counts x
                 else s.sorted_counts
  let gate2 := gate1.update.1
  let gate_pos := gate1.update.2
  let conv1 := s.conveyor.update.1
  let active_objects := s.conveyor.update.2
  let conv2 := match inp.spawn with
    | some (sc, si) => conv1.add_object sc si
    | none => conv1
  let tgt := match inp.key with
    | some k => k.toColor
    | none => s.target_color
  ({ conveyor := conv2, gate := gate2, target_color := tgt,
     sorted_counts := counts1 },
   gate_pos, active_objects)

/-- Run the loop for a list of tick inputs. -/
def AutomatedSorter.runSteps (s : AutomatedSorter) : List TickInput → AutomatedSorter
  | [] => s
  | inp :: rest => ((s.tick inp).1).runSteps rest

/-- A single externally-triggered operation on a `VirtualConveyor`:
an `add_object` call or an `update` call. -/
inductive ConvStep where
  | add (color : ObjectColor) (newId : ℕ)
  | upd
deriving DecidableEq, Repr

/-- Apply one conveyor operation. -/
def applyConvStep (c : VirtualConveyor) : ConvStep → VirtualConveyor
  | .add color newId => c.add_object color newId
  | .upd => c.update.1

/-- Apply a sequence of conveyor operations. -/
def applyConvSteps (c : VirtualConveyor) : List ConvStep → VirtualConveyor
  | [] => c
  | s :: rest => applyConvSteps (applyConvStep c s) rest

/-! ### Helper lemmas about the conveyor -/

/-- `add_object` and `update` leave the speed unchanged. -/
theorem applyConvStep_speed (c : VirtualConveyor) (s : ConvStep) :
    (applyConvStep c s).speed = c.speed := by
  cases s <;> rfl

/-- A sequence of conveyor operations leaves the speed unchanged. -/
theorem applyConvSteps_speed (steps : List ConvStep) (c : VirtualConveyor) :
    (applyConvSteps c steps).speed = c.speed := by
  induction steps generalizing c with
  | nil => rfl
  | cons s rest ih => rw [applyConvSteps, ih, applyConvStep_speed]

/-- Iterated updates leave the speed unchanged. -/
theorem updateN_speed (c : VirtualConveyor) (k : ℕ) :
    (c.updateN k).speed = c.speed := by
  induction k with
  | zero => rfl
  | succ k ih => rw [VirtualConveyor.updateN, VirtualConveyor.update, ih]

/-- Adding a token then updating `k` times leaves the token as the last
list entry, at position `k * speed`; the other tokens evolve exactly as
they would have without the addition. -/
theorem updateN_add_object (c : VirtualConveyor) (col : ObjectColor) (i : ℕ)
    (k : ℕ) :
    ((c.add_object col i).updateN k).objects =
      (c.updateN k).objects ++
        [{ color := col, position := (k : ℚ) * c.speed, id := i }] := by
  induction k with
  | zero =>
    simp [VirtualConveyor.updateN, VirtualConveyor.add_object]
  | succ k ih =>
    rw [VirtualConveyor.updateN, VirtualConveyor.update, VirtualConveyor.updateN,
      VirtualConveyor.update]
    simp only [ih, List.map_append, List.map_cons, List.map_nil, updateN_speed]
    have hsp : (c.add_object col i).speed = c.speed := rfl
    rw [hsp]
    have hs : (k : ℚ) * c.speed + c.speed = ((k + 1 : ℕ) : ℚ) * c.speed := by
      push_cast; ring
    rw [hs]

/-- Tokens never move backward: if every token has a non-negative
position, the same holds after any sequence of operations. -/
theorem applyConvSteps_pos_nonneg (steps : List ConvStep) (c : VirtualConveyor)
    (hs : 0 ≤ c.speed) (h : ∀ o ∈ c.objects, 0 ≤ o.position) :
    ∀ o ∈ (applyConvSteps c steps).objects, 0 ≤ o.position := by
  induction steps generalizing c with
  | nil => exact h
  | cons s rest ih =>
    rw [applyConvSteps]
    refine ih _ ?_ ?_
    · rw [applyConvStep_speed]; exact hs
    · cases s with
      | add col i =>
        intro o ho
        simp only [applyConvStep, VirtualConveyor.add_object, List.mem_append,
          List.mem_singleton] at ho
        rcases ho with ho | ho
        · exact h o ho
        · subst ho; norm_num
      | upd =>
        intro o ho
        simp only [applyConvStep, VirtualConveyor.update, List.mem_map] at ho
        obtain ⟨o', ho', rfl⟩ := ho
        have := h o' ho'
        simp only []
        positivity

/-- C1: a call to `update` advances every token's position by exactly
0.5, the returned sequence is exactly the live set of the post-call
state, and a token is returned iff its advanced position is below 100
(so every token at position ≥ 100 is dropped from the live set and the
return). -/
theorem C1_update_advances_and_filters (c : VirtualConveyor)
    (h : c.speed = 1/2) :
    (c.update.1.objects =
      c.objects.map (fun o => { o with position := o.position + 1/2 })) ∧
    (c.update.2 = c.update.1.liveSet) ∧
    (∀ o : ObjectToken,
      o ∈ c.update.2 ↔ o ∈ c.update.1.objects ∧ o.position < 100) := by
  refine ⟨?_, rfl, ?_⟩
  · rw [VirtualConveyor.update, h]
  · intro o
    simp [VirtualConveyor.update, List.mem_filter]

/-- Witness for C1 on a concrete one-token conveyor. -/
theorem C1_witness :
    (VirtualConveyor.init.add_object .RED 1234).update.2 =
      (VirtualConveyor.init.add_object .RED 1234).update.1.liveSet :=
  (C1_update_advances_and_filters (VirtualConveyor.init.add_object .RED 1234)
    rfl).2.1

/-- C2: in every state reachable from the fresh conveyor by `add_object`
and `update` calls, every token of the live set has position in
`[0, 100)`. -/
theorem C2_live_positions_in_range (steps : List ConvStep) (o : ObjectToken)
    (ho : o ∈ (applyConvSteps VirtualConveyor.init steps).liveSet) :
    0 ≤ o.position ∧ o.position < 100 := by
  rw [VirtualConveyor.liveSet, List.mem_filter] at ho
  refine ⟨?_, by simpa using ho.2⟩
  refine applyConvSteps_pos_nonneg steps VirtualConveyor.init ?_ ?_ o ho.1
  · norm_num [VirtualConveyor.init]
  · intro o' ho'
    simp [VirtualConveyor.init] at ho'

/-- Witness for C2: the token spawned then advanced once sits at
position 0.5, inside `[0, 100)`. -/
theorem C2_witness :
    0 ≤ ({ color := .RED, position := 1/2, id := 1000 } : ObjectToken).position ∧
    ({ color := .RED, position := 1/2, id := 1000 } : ObjectToken).position < 100 :=
  C2_live_positions_in_range [.add .RED 1000, .upd]
    { color := .RED, position := 1/2, id := 1000 }
    (by norm_num [applyConvSteps, applyConvStep, VirtualConveyor.add_object,
      VirtualConveyor.update, VirtualConveyor.liveSet, VirtualConveyor.init,
      List.filter])

/-- C7: a token added at position 0 has position `k * 0.5` after `k`
update calls and stays in the live set through the first 199 calls; after
the 200th call its position is 100 and it is gone from the live set; each
call's returned list is the live set of the resulting state. -/
theorem C7_expiry_after_200_updates (c : VirtualConveyor) (h : c.speed = 1/2)
    (col : ObjectColor) (i : ℕ) :
    (∀ k : ℕ, k < 200 →
      ({ color := col, position := (k : ℚ) * (1/2), id := i } : ObjectToken) ∈
        ((c.add_object col i).updateN k).liveSet) ∧
    (({ color := col, position := 100, id := i } : ObjectToken) ∉
        ((c.add_object col i).updateN 200).liveSet) ∧
    (∀ k : ℕ, ((c.add_object col i).updateN k).update.2 =
        ((c.add_object col i).updateN (k + 1)).liveSet) := by
  refine ⟨?_, ?_, fun k => rfl⟩
  · intro k hk
    rw [VirtualConveyor.liveSet, List.mem_filter]
    constructor
    · rw [updateN_add_object, h]
      simp
    · simp only [decide_eq_true_eq]
      have hk' : (k : ℚ) < 200 := by exact_mod_cast hk
      linarith
  · intro hmem
    rw [VirtualConveyor.liveSet, List.mem_filter] at hmem
    have := hmem.2
    norm_num at this

/-- Witness for C7: a concrete spawned token is live after the first
update and the value it reaches after 200 updates is out of the live
set. -/
theorem C7_witness :
    ({ color := .RED, position := (1 : ℚ) * (1/2), id := 42 } : ObjectToken) ∈
      ((VirtualConveyor.init.add_object .RED 42).updateN 1).liveSet ∧
    ({ color := .RED, position := 100, id := 42 } : ObjectToken) ∉
      ((VirtualConveyor.init.add_object .RED 42).updateN 200).liveSet :=
  ⟨by
    have h1 := (C7_expiry_after_200_updates VirtualConveyor.init rfl .RED 42).1
      1 (by norm_num)
    exact_mod_cast h1,
   (C7_expiry_after_200_updates VirtualConveyor.init rfl .RED 42).2.1⟩

/-! ### The gate-opening scenario of C4 -/

/-- The fresh actuator after `set_position(1)`: position 0, target 1. -/
def openGate : VirtualActuator := VirtualActuator.init.set_position 1

/-- `rne` of a value whose fractional part is below one half rounds
down. -/
theorem rne_eq_of_fract_lt (m : ℚ) (n : ℤ) (h1 : (n : ℚ) ≤ m)
    (h2 : m - (n : ℚ) < 1/2) : rne m = n := by
  have hfl : ⌊m⌋ = n := Int.floor_eq_iff.mpr ⟨h1, by linarith⟩
  rw [rne, hfl, if_pos h2]

/-- `rne` of a value whose fractional part is above one half rounds
up. -/
theorem rne_eq_of_fract_gt (m : ℚ) (n : ℤ) (h1 : (n : ℚ) ≤ m)
    (h2 : 1/2 < m - (n : ℚ)) (h3 : m < (n : ℚ) + 1) : rne m = n + 1 := by
  have hfl : ⌊m⌋ = n := Int.floor_eq_iff.mpr ⟨h1, by linarith⟩
  rw [rne, hfl, if_neg (by linarith), if_pos h2]

/-- `rne` at an exact half-way point with even floor keeps the floor. -/
theorem rne_eq_of_fract_half_even (m : ℚ) (n : ℤ) (h1 : (n : ℚ) = m - 1/2)
    (h2 : 2 ∣ n) : rne m = n := by
  have hfl : ⌊m⌋ = n :=
    Int.floor_eq_iff.mpr ⟨by linarith, by linarith⟩
  rw [rne, hfl, if_neg (by linarith), if_neg (by linarith), if_pos h2]

/-- `rne` at an exact half-way point with odd floor rounds up to the
even neighbor. -/
theorem rne_eq_of_fract_half_odd (m : ℚ) (n : ℤ) (h1 : (n : ℚ) = m - 1/2)
    (h2 : ¬ 2 ∣ n) : rne m = n + 1 := by
  have hfl : ⌊m⌋ = n :=
    Int.floor_eq_iff.mpr ⟨by linarith, by linarith⟩
  rw [rne, hfl, if_neg (by linarith), if_neg (by linarith), if_neg h2]

/-- Evaluate `roundDouble` at a positive value from its binade bounds
and the rounded significand. -/
theorem roundDouble_eq (q : ℚ) (e : ℤ) (n : ℤ) (h0 : 0 < q)
    (h1 : (2:ℚ) ^ e ≤ q) (h2 : q < (2:ℚ) ^ (e + 1))
    (hn : rne (q * (2:ℚ) ^ ((52 : ℤ) - e)) = n) :
    roundDouble q = (n : ℚ) * (2:ℚ) ^ (e - 52) := by
  have hlog : Int.log 2 q = e := by
    have hle : e ≤ Int.log 2 q :=
      (Int.zpow_le_iff_le_log one_lt_two h0).mp (by exact_mod_cast h1)
    have hlt : Int.log 2 q < e + 1 :=
      (Int.lt_zpow_iff_log_lt one_lt_two h0).mp (by exact_mod_cast h2)
    omega
  rw [roundDouble, if_neg h0.ne', if_pos h0, hlog, hn]

/-- The double nearest 0.1: `0x1.999999999999ap-4`, slightly above the
decimal. -/
theorem fp01_val : fp01 = 3602879701896397/36028797018963968 := by
  have h := roundDouble_eq (1/10) (-4) 7205759403792794 (by norm_num)
    (by norm_num) (by norm_num)
    ((rne_eq_of_fract_gt _ 7205759403792793 (by norm_num) (by norm_num)
      (by norm_num)).trans (by norm_num))
  rw [fp01, h]
  norm_num

/-- The target stays 1 along the binary64 opening run. -/
theorem updateFPN_openGate_target (k : ℕ) :
    (openGate.updateFPN k).target = 1 := by
  induction k with
  | zero => rfl
  | succ k ih =>
    rw [VirtualActuator.updateFPN, VirtualActuator.updateFP]
    split_ifs <;> simpa using ih

/-- `updateFP` below the target stores the correctly rounded sum with
the 0.1 double. -/
theorem updateFP_pos_of_lt (a : VirtualActuator)
    (h : a.position < a.target) :
    a.updateFP.1.position = roundDouble (a.position + fp01) := by
  rw [VirtualActuator.updateFP, if_pos h]

/-- One binary64 opening step, evaluated from the previous position and
the rounding data of the step. -/
theorem fp_step_lt (k : ℕ) (p : ℚ) (e : ℤ) (n : ℤ)
    (hp : (openGate.updateFPN k).position = p) (hlt : p < 1)
    (h1 : (2:ℚ) ^ e ≤ p + fp01) (h2 : p + fp01 < (2:ℚ) ^ (e + 1))
    (hn : rne ((p + fp01) * (2:ℚ) ^ ((52 : ℤ) - e)) = n) :
    (openGate.updateFPN (k + 1)).position = (n : ℚ) * (2:ℚ) ^ (e - 52) := by
  have h0 : 0 < p + fp01 :=
    lt_of_lt_of_le (zpow_pos (by norm_num) e) h1
  have hstep : (openGate.updateFPN k).updateFP.1.position =
      roundDouble ((openGate.updateFPN k).position + fp01) :=
    updateFP_pos_of_lt _
      (by rw [hp, updateFPN_openGate_target k]; exact hlt)
  rw [VirtualActuator.updateFPN, hstep, hp,
    roundDouble_eq (p + fp01) e n h0 h1 h2 hn]

/-- Position after 0 calls: 0. -/
theorem fpP0 : (openGate.updateFPN 0).position = 0 := rfl

/-- Position after call 1: the double 0.1. -/
theorem fpP1 : (openGate.updateFPN 1).position =
    3602879701896397/36028797018963968 := by
  have h := fp_step_lt 0 0 (-4) 7205759403792794 fpP0 (by norm_num)
    (by rw [fp01_val]; norm_num) (by rw [fp01_val]; norm_num)
    (by rw [fp01_val]
        exact rne_eq_of_fract_lt _ 7205759403792794 (by norm_num)
          (by norm_num))
  rw [h]; norm_num

/-- Position after call 2: the double 0.2 (the sum is exact). -/
theorem fpP2 : (openGate.updateFPN 2).position =
    3602879701896397/18014398509481984 := by
  have h := fp_step_lt 1 (3602879701896397/36028797018963968) (-3)
    7205759403792794 fpP1 (by norm_num)
    (by rw [fp01_val]; norm_num) (by rw [fp01_val]; norm_num)
    (by rw [fp01_val]
        exact rne_eq_of_fract_lt _ 7205759403792794 (by norm_num)
          (by norm_num))
  rw [h]; norm_num

/-- Position after call 3: 0.30000000000000004 — a tie rounded to the
even significand, landing above the decimal 0.3. -/
theorem fpP3 : (openGate.updateFPN 3).position =
    1351079888211149/4503599627370496 := by
  have h := fp_step_lt 2 (3602879701896397/18014398509481984) (-2)
    5404319552844596 fpP2 (by norm_num)
    (by rw [fp01_val]; norm_num) (by rw [fp01_val]; norm_num)
    (by rw [fp01_val]
        exact (rne_eq_of_fract_half_odd _ 5404319552844595 (by norm_num)
          (by decide)).trans (by norm_num))
  rw [h]; norm_num

/-- Position after call 4: the double 0.4 — a tie rounded to the even
(unchanged) significand. -/
theorem fpP4 : (openGate.updateFPN 4).position =
    3602879701896397/9007199254740992 := by
  have h := fp_step_lt 3 (1351079888211149/4503599627370496) (-2)
    7205759403792794 fpP3 (by norm_num)
    (by rw [fp01_val]; norm_num) (by rw [fp01_val]; norm_num)
    (by rw [fp01_val]
        exact rne_eq_of_fract_half_even _ 7205759403792794 (by norm_num)
          (by decide))
  rw [h]; norm_num

/-- Position after call 5: exactly 0.5. -/
theorem fpP5 : (openGate.updateFPN 5).position = 1/2 := by
  have h := fp_step_lt 4 (3602879701896397/9007199254740992) (-1)
    4503599627370496 fpP4 (by norm_num)
    (by rw [fp01_val]; norm_num) (by rw [fp01_val]; norm_num)
    (by rw [fp01_val]
        exact rne_eq_of_fract_lt _ 4503599627370496 (by norm_num)
          (by norm_num))
  rw [h]; norm_num

/-- Position after call 6: the double 0.6. -/
theorem fpP6 : (openGate.updateFPN 6).position =
    5404319552844595/9007199254740992 := by
  have h := fp_step_lt 5 (1/2) (-1) 5404319552844595 fpP5 (by norm_num)
    (by rw [fp01_val]; norm_num) (by rw [fp01_val]; norm_num)
    (by rw [fp01_val]
        exact rne_eq_of_fract_lt _ 5404319552844595 (by norm_num)
          (by norm_num))
  rw [h]; norm_num

/-- Position after call 7: the double 0.7. -/
theorem fpP7 : (openGate.updateFPN 7).position =
    3152519739159347/4503599627370496 := by
  have h := fp_step_lt 6 (5404319552844595/9007199254740992) (-1)
    6305039478318694 fpP6 (by norm_num)
    (by rw [fp01_val]; norm_num) (by rw [fp01_val]; norm_num)
    (by rw [fp01_val]
        exact rne_eq_of_fract_lt _ 6305039478318694 (by norm_num)
          (by norm_num))
  rw [h]; norm_num

/-- Position after call 8: 0.7999999999999999, now below the decimal. -/
theorem fpP8 : (openGate.updateFPN 8).position =
    7205759403792793/9007199254740992 := by
  have h := fp_step_lt 7 (3152519739159347/4503599627370496) (-1)
    7205759403792793 fpP7 (by norm_num)
    (by rw [fp01_val]; norm_num) (by rw [fp01_val]; norm_num)
    (by rw [fp01_val]
        exact rne_eq_of_fract_lt _ 7205759403792793 (by norm_num)
          (by norm_num))
  rw [h]; norm_num

/-- Position after call 9: 0.8999999999999999. -/
theorem fpP9 : (openGate.updateFPN 9).position =
    2026619832316723/2251799813685248 := by
  have h := fp_step_lt 8 (7205759403792793/9007199254740992) (-1)
    8106479329266892 fpP8 (by norm_num)
    (by rw [fp01_val]; norm_num) (by rw [fp01_val]; norm_num)
    (by rw [fp01_val]
        exact rne_eq_of_fract_lt _ 8106479329266892 (by norm_num)
          (by norm_num))
  rw [h]; norm_num

/-- Position after call 10: 0.9999999999999999, one ulp short of the
target. -/
theorem fpP10 : (openGate.updateFPN 10).position =
    9007199254740991/9007199254740992 := by
  have h := fp_step_lt 9 (2026619832316723/2251799813685248) (-1)
    9007199254740991 fpP9 (by norm_num)
    (by rw [fp01_val]; norm_num) (by rw [fp01_val]; norm_num)
    (by rw [fp01_val]
        exact rne_eq_of_fract_lt _ 9007199254740991 (by norm_num)
          (by norm_num))
  rw [h]; norm_num

/-- Position after call 11: 1.0999999999999999 — still below the target
at call 10, the actuator adds another step and overshoots past 1. -/
theorem fpP11 : (openGate.updateFPN 11).position =
    4953959590107545/4503599627370496 := by
  have h := fp_step_lt 10 (9007199254740991/9007199254740992) 0
    4953959590107545 fpP10 (by norm_num)
    (by rw [fp01_val]; norm_num) (by rw [fp01_val]; norm_num)
    (by rw [fp01_val]
        exact rne_eq_of_fract_lt _ 4953959590107545 (by norm_num)
          (by norm_num))
  rw [h]; norm_num

/-- Counterexample to C4 as stated: under binary64 arithmetic the
repeated 0.1 steps never overshoot only through call 10 — the position
after ten calls is 0.9999999999999999, still short of the target, so the
11th call applies the step again and the position becomes
1.0999999999999999, past the target 1 and outside `[0, 1]`. -/
theorem C4_counterexample :
    (openGate.updateFPN 10).position < 1 ∧
    (openGate.updateFPN 11).position =
      4953959590107545/4503599627370496 ∧
    1 < (openGate.updateFPN 11).position := by
  refine ⟨?_, fpP11, ?_⟩
  · rw [fpP10]; norm_num
  · rw [fpP11]; norm_num

/-- C4 amended: from position 0 with target 1, under binary64
arithmetic, the position after ten calls is the double
0.9999999999999999 ≥ 0.99; through the first ten calls the position
stays in `[0, 1]`, and each of those calls finds the position strictly
below the target and moves it by the correctly rounded 0.1 step (so no
overshoot occurs within the first ten calls; the 11th call overshoots,
see the counterexample). -/
theorem C4_gate_opening_fp :
    ((openGate.updateFPN 10).position = 9007199254740991/9007199254740992 ∧
      (openGate.updateFPN 10).position ≥ 99/100) ∧
    (∀ k : ℕ, k ≤ 10 → 0 ≤ (openGate.updateFPN k).position ∧
      (openGate.updateFPN k).position ≤ 1) ∧
    (∀ k : ℕ, k < 10 → (openGate.updateFPN k).position < 1 ∧
      (openGate.updateFPN (k + 1)).position =
        roundDouble ((openGate.updateFPN k).position + fp01)) := by
  refine ⟨⟨fpP10, by rw [fpP10]; norm_num⟩, ?_, ?_⟩
  · intro k hk
    interval_cases k <;>
      norm_num [fpP0, fpP1, fpP2, fpP3, fpP4, fpP5, fpP6, fpP7, fpP8,
        fpP9, fpP10]
  · intro k hk
    have hlt : (openGate.updateFPN k).position < 1 := by
      interval_cases k <;>
        norm_num [fpP0, fpP1, fpP2, fpP3, fpP4, fpP5, fpP6, fpP7, fpP8,
          fpP9]
    refine ⟨hlt, ?_⟩
    exact updateFP_pos_of_lt _
      (by rw [updateFPN_openGate_target k]; exact hlt)

/-- Witness for the amended C4 at concrete call counts. -/
theorem C4_witness :
    (0 ≤ (openGate.updateFPN 10).position ∧
      (openGate.updateFPN 10).position ≤ 1) ∧
    ((openGate.updateFPN 9).position < 1 ∧
      (openGate.updateFPN 10).position =
        roundDouble ((openGate.updateFPN 9).position + fp01)) :=
  ⟨C4_gate_opening_fp.2.1 10 (by norm_num),
   C4_gate_opening_fp.2.2 9 (by norm_num)⟩

/-- C3: the classifier returns the label whose pixel count strictly
exceeds both other labels' counts, and UNKNOWN exactly when no label
strictly dominates both others; in particular counts (50, 50, 0) yield
UNKNOWN and (50, 49, 0) yield RED. -/
theorem C3_detect_strict_dominance (r g b : ℕ) :
    (AIColorDetector.detect r g b = .RED ↔ r > g ∧ r > b) ∧
    (AIColorDetector.detect r g b = .GREEN ↔ g > r ∧ g > b) ∧
    (AIColorDetector.detect r g b = .BLUE ↔ b > r ∧ b > g) ∧
    (AIColorDetector.detect r g b = .UNKNOWN ↔
      ¬(r > g ∧ r > b) ∧ ¬(g > r ∧ g > b) ∧ ¬(b > r ∧ b > g)) ∧
    AIColorDetector.detect 50 50 0 = .UNKNOWN ∧
    AIColorDetector.detect 50 49 0 = .RED := by
  unfold AIColorDetector.detect
  refine ⟨?_, ?_, ?_, ?_, by decide, by decide⟩ <;>
    split_ifs <;> simp_all <;> omega

/-- C5: on each tick the tally entry for color `C` is incremented exactly
when this tick's classification equals the target color in effect at the
start of the tick and `C` is that classification; a key command arriving
during the tick sets the target used by the next tick and never alters
the current tick's tally. -/
theorem C5_tally_iff_match (s : AutomatedSorter) (inp : TickInput)
    (C : ObjectColor) :
    ((s.tick inp).1.sorted_counts C = s.sorted_counts C +
      (if AIColorDetector.detect inp.red_pixels inp.green_pixels inp.blue_pixels
            = s.target_color ∧
          C = AIColorDetector.detect inp.red_pixels inp.green_pixels
            inp.blue_pixels
       then 1 else 0)) ∧
    (∀ k : KeyCmd,
      (s.tick { inp with key := some k }).1.target_color = k.toColor) ∧
    ((s.tick { inp with key := none }).1.target_color = s.target_color) ∧
    (∀ k : KeyCmd,
      (s.tick { inp with key := some k }).1.sorted_counts C =
        (s.tick { inp with key := none }).1.sorted_counts C) := by
  refine ⟨?_, fun k => rfl, rfl, fun k => rfl⟩
  by_cases h1 : AIColorDetector.detect inp.red_pixels inp.green_pixels
      inp.blue_pixels = s.target_color
  · by_cases h2 : C = AIColorDetector.detect inp.red_pixels inp.green_pixels
        inp.blue_pixels
    · simp [AutomatedSorter.tick, h1, h2]
    · rw [h1] at h2
      simp [AutomatedSorter.tick, h1, h2]
  · simp [AutomatedSorter.tick, h1]

/-! ### The three-tick scenario of C6 -/

/-- A frame whose masks make the detector report RED. -/
def frameRED : TickInput :=
  { red_pixels := 1, green_pixels := 0, blue_pixels := 0,
    spawn := none, key := none }

/-- A frame whose masks make the detector report GREEN. -/
def frameGREEN : TickInput :=
  { red_pixels := 0, green_pixels := 1, blue_pixels := 0,
    spawn := none, key := none }

/-- Tick 1 of the scenario: fresh sorter, RED frame. -/
def scenTick1 : AutomatedSorter × ℚ × List ObjectToken :=
  AutomatedSorter.init.tick frameRED

/-- Tick 2: GREEN frame. -/
def scenTick2 : AutomatedSorter × ℚ × List ObjectToken :=
  scenTick1.1.tick frameGREEN

/-- Tick 3: RED frame. -/
def scenTick3 : AutomatedSorter × ℚ × List ObjectToken :=
  scenTick2.1.tick frameRED

/-- C6: from the fresh sorter (target RED), ticks classifying RED, GREEN,
RED with no spawns yield gate positions 0.1, 0.0, 0.1 after ticks 1, 2, 3
and final tallies RED = 2, GREEN = BLUE = UNKNOWN = 0. -/
theorem C6_three_tick_trace :
    scenTick1.2.1 = 1/10 ∧ scenTick2.2.1 = 0 ∧ scenTick3.2.1 = 1/10 ∧
    scenTick3.1.gate.position = 1/10 ∧
    scenTick3.1.sorted_counts .RED = 2 ∧
    scenTick3.1.sorted_counts .GREEN = 0 ∧
    scenTick3.1.sorted_counts .BLUE = 0 ∧
    scenTick3.1.sorted_counts .UNKNOWN = 0 := by
  simp [scenTick1, scenTick2, scenTick3, frameRED, frameGREEN,
    AutomatedSorter.tick, AutomatedSorter.init, AIColorDetector.detect,
    VirtualActuator.update, VirtualActuator.set_position,
    VirtualActuator.init, VirtualConveyor.update, VirtualConveyor.init]
  norm_num

/-! ### Identifier collisions (C8) -/

/-- The conveyor after two `add_object` calls whose generated ids both
came out 1000 — a possible outcome of `random.randint(1000, 9999)`,
which the source never checks for collisions. -/
def collisionConveyor : VirtualConveyor :=
  (VirtualConveyor.init.add_object .RED 1000).add_object .GREEN 1000

/-- Counterexample to C8: after two spawns whose id draws both returned
1000, the live set holds two tokens sharing the identifier 1000. -/
theorem C8_counterexample :
    collisionConveyor.liveSet.map ObjectToken.id = [1000, 1000] ∧
    ¬ (collisionConveyor.liveSet.map ObjectToken.id).Nodup := by
  have h : collisionConveyor.liveSet.map ObjectToken.id = [1000, 1000] := by
    norm_num [collisionConveyor, VirtualConveyor.liveSet,
      VirtualConveyor.init, VirtualConveyor.add_object, List.filter_cons]
  refine ⟨h, ?_⟩
  rw [h]
  simp

/-- C8 amended: `add_object` installs the generated id with no
uniqueness check, so live-set ids stay pairwise distinct only on the
outcomes where the generated id is fresh: if the current tokens' ids are
pairwise distinct and the new id differs from all of them, they are
pairwise distinct after the call (and `update` never changes any id). -/
theorem C8_amended_fresh_id (c : VirtualConveyor) (color : ObjectColor)
    (newId : ℕ) (h : (c.objects.map ObjectToken.id).Nodup)
    (hfresh : newId ∉ c.objects.map ObjectToken.id) :
    ((c.add_object color newId).objects.map ObjectToken.id).Nodup ∧
    ((c.add_object color newId).liveSet.map ObjectToken.id).Nodup ∧
    (c.update.1.objects.map ObjectToken.id =
      c.objects.map ObjectToken.id) := by
  have hadd : (c.add_object color newId).objects.map ObjectToken.id =
      c.objects.map ObjectToken.id ++ [newId] := by
    simp [VirtualConveyor.add_object]
  have h1 : ((c.add_object color newId).objects.map ObjectToken.id).Nodup := by
    rw [hadd]
    simp [List.nodup_append, h, hfresh]
  refine ⟨h1, ?_, ?_⟩
  · exact List.Nodup.sublist
      ((List.filter_sublist _).map ObjectToken.id) h1
  · simp [VirtualConveyor.update, List.map_map, Function.comp]

/-- Witness for the amended C8 on a one-token conveyor with a fresh
id. -/
theorem C8_amended_witness :
    ((VirtualConveyor.init.add_object .RED 1234).objects.map
      ObjectToken.id).Nodup ∧
    ((VirtualConveyor.init.add_object .RED 1234).liveSet.map
      ObjectToken.id).Nodup ∧
    (VirtualConveyor.init.update.1.objects.map ObjectToken.id =
      VirtualConveyor.init.objects.map ObjectToken.id) :=
  C8_amended_fresh_id VirtualConveyor.init .RED 1234
    (by simp [VirtualConveyor.init]) (by simp [VirtualConveyor.init])

/-! ### The UNKNOWN tally (C9) -/

/-- One tick preserves the C9 invariant: a non-UNKNOWN target and a zero
UNKNOWN tally. -/
theorem tick_unknown_invariant (s : AutomatedSorter) (inp : TickInput)
    (ht : s.target_color ≠ .UNKNOWN) (hc : s.sorted_counts .UNKNOWN = 0) :
    (s.tick inp).1.target_color ≠ .UNKNOWN ∧
    (s.tick inp).1.sorted_counts .UNKNOWN = 0 := by
  constructor
  · simp only [AutomatedSorter.tick]
    cases hk : inp.key with
    | none => simpa [hk] using ht
    | some k => cases k <;> simp [hk, KeyCmd.toColor]
  · by_cases h1 : AIColorDetector.detect inp.red_pixels inp.green_pixels
        inp.blue_pixels = s.target_color
    · have h2 : ObjectColor.UNKNOWN ≠ s.target_color := Ne.symm ht
      simp [AutomatedSorter.tick, h1, h2, hc]
    · simp [AutomatedSorter.tick, h1, hc]

/-- The C9 invariant propagates along any run. -/
theorem runSteps_unknown_invariant (inputs : List TickInput)
    (s : AutomatedSorter) (ht : s.target_color ≠ .UNKNOWN)
    (hc : s.sorted_counts .UNKNOWN = 0) :
    (s.runSteps inputs).target_color ≠ .UNKNOWN ∧
    (s.runSteps inputs).sorted_counts .UNKNOWN = 0 := by
  induction inputs generalizing s with
  | nil => exact ⟨ht, hc⟩
  | cons inp rest ih =>
    rw [AutomatedSorter.runSteps]
    obtain ⟨ht', hc'⟩ := tick_unknown_invariant s inp ht hc
    exact ih _ ht' hc'

/-- C9: in every state reachable from the fresh sorter the UNKNOWN tally
entry is 0, and the target color is never UNKNOWN. -/
theorem C9_unknown_tally_zero (inputs : List TickInput) :
    (AutomatedSorter.init.runSteps inputs).sorted_counts .UNKNOWN = 0 ∧
    (AutomatedSorter.init.runSteps inputs).target_color ≠ .UNKNOWN := by
  obtain ⟨h1, h2⟩ := runSteps_unknown_invariant inputs AutomatedSorter.init
    (by decide) rfl
  exact ⟨h2, h1⟩

/-- C10: `add_object` and `update` never modify an existing token's
color or id: after any sequence of conveyor operations the token at each
original index is still there with its original color and id, no token
is deleted, and the speed field is untouched (update rewrites only the
positions and the belt's own position counter). -/
theorem C10_color_id_immutable (c : VirtualConveyor) (steps : List ConvStep)
    (i : ℕ) (hi : i < c.objects.length) :
    c.objects.length ≤ (applyConvSteps c steps).objects.length ∧
    (applyConvSteps c steps).objects[i]?.map ObjectToken.color =
      c.objects[i]?.map ObjectToken.color ∧
    (applyConvSteps c steps).objects[i]?.map ObjectToken.id =
      c.objects[i]?.map ObjectToken.id ∧
    (applyConvSteps c steps).speed = c.speed := by
  induction steps generalizing c with
  | nil => exact ⟨le_refl _, rfl, rfl, rfl⟩
  | cons s rest ih =>
    have hstep : c.objects.length ≤ (applyConvStep c s).objects.length ∧
        (applyConvStep c s).objects[i]?.map ObjectToken.color =
          c.objects[i]?.map ObjectToken.color ∧
        (applyConvStep c s).objects[i]?.map ObjectToken.id =
          c.objects[i]?.map ObjectToken.id := by
      cases s with
      | add col newId =>
        refine ⟨by simp [applyConvStep, VirtualConveyor.add_object], ?_, ?_⟩ <;>
        · simp only [applyConvStep, VirtualConveyor.add_object]
          rw [List.getElem?_append_left hi]
      | upd =>
        refine ⟨by simp [applyConvStep, VirtualConveyor.update], ?_, ?_⟩ <;>
        · simp only [applyConvStep, VirtualConveyor.update, List.getElem?_map]
          cases c.objects[i]? <;> simp
    obtain ⟨hlen, hcol, hid⟩ := hstep
    have hi' : i < (applyConvStep c s).objects.length :=
      lt_of_lt_of_le hi hlen
    obtain ⟨hl2, hc2, hi2, hs2⟩ := ih (applyConvStep c s) hi'
    rw [applyConvSteps]
    exact ⟨le_trans hlen hl2, hc2.trans hcol, hi2.trans hid,
      hs2.trans (applyConvStep_speed c s)⟩

/-- Witness for C10: one spawned token keeps its color and id across an
update. -/
theorem C10_witness :
    (VirtualConveyor.init.add_object .RED 7).objects.length ≤
      (applyConvSteps (VirtualConveyor.init.add_object .RED 7)
        [.upd]).objects.length ∧
    (applyConvSteps (VirtualConveyor.init.add_object .RED 7)
        [.upd]).objects[0]?.map ObjectToken.color =
      (VirtualConveyor.init.add_object .RED 7).objects[0]?.map
        ObjectToken.color ∧
    (applyConvSteps (VirtualConveyor.init.add_object .RED 7)
        [.upd]).objects[0]?.map ObjectToken.id =
      (VirtualConveyor.init.add_object .RED 7).objects[0]?.map
        ObjectToken.id ∧
    (applyConvSteps (VirtualConveyor.init.add_object .RED 7) [.upd]).speed =
      (VirtualConveyor.init.add_object .RED 7).speed :=
  C10_color_id_immutable (VirtualConveyor.init.add_object .RED 7) [.upd] 0
    (by decide)
